import Mathlib

/-!
# Verification of the declarative workflow engine

A shallow embedding of the engine's core (state type and reducers, value
resolver, node executor wrapper, node logic handlers, workflow compiler,
event streaming layer) translated from the Python sources in
`src/services/graph_types.py`, `src/services/node_factory.py`,
`src/services/node_logic.py`, `src/services/langgraph_builder.py` and
`src/services/workflow_orchestrator.py`, together with theorems settling
the specification claims about those components.

Python strings are modelled as `List Char` (`Str`), Python `None` as
`Value.vnull`, JSON-like Python objects as the inductive `Value`, Python
dicts as insertion-ordered association lists with unique keys, and
exceptions as `Except ErrDetails`.  Wall-clock timing is environmental and
is modelled as a constant `0` duration; external I/O (the LLM client, the
prompt template loader, HTTP, the compiled sub-graph) is abstracted as
function parameters.
-/

/-- Python strings, modelled as lists of characters. -/
abbrev Str := List Char

/-- The single-quote character used by the quoted-literal rule of the
value resolver. -/
def squote : Char := '\''

/-- A JSON-like Python value: `None`, bools, ints, strings, byte blobs,
lists and (insertion-ordered) dicts.  Floats are not used by any claim and
are omitted. -/
inductive Value where
  | vnull : Value
  | vbool : Bool → Value
  | vint : Int → Value
  | vstr : Str → Value
  | vbytes : List Nat → Value
  | vlist : List Value → Value
  | vdict : List (Str × Value) → Value

/-- A Python dict with `Str` keys and JSON-like values, as an
insertion-ordered association list (keys unique by construction in the
source). -/
abbrev DictV := List (Str × Value)

/-- First binding of `k` in the association list `d`, mirroring Python
`d[k]` / `k in d` on dicts with unique keys. -/
def alookup {β : Type} : List (Str × β) → Str → Option β
  | [], _ => none
  | kv :: rest, k => if kv.1 = k then some kv.2 else alookup rest k

/-- Python `d.get(k)`: the bound value, or `None` when the key is absent. -/
def dictGet (d : DictV) (k : Str) : Value := (alookup d k).getD .vnull

/-- Python `k in d`. -/
def containsKey {β : Type} (d : List (Str × β)) (k : Str) : Bool :=
  (alookup d k).isSome

/-- Python `d[k] = v`: replace the value in place when the key exists,
otherwise append the new binding (insertion order). -/
def dictSet {β : Type} (d : List (Str × β)) (k : Str) (v : β) : List (Str × β) :=
  if containsKey d k then
    d.map (fun kv => if kv.1 = k then (k, v) else kv)
  else d ++ [(k, v)]

/-- Python `{**left, **right}` on dicts: keys of `left` in their order with
values updated from `right`, then the keys only in `right` in their order. -/
def mergeDict (l r : DictV) : DictV :=
  l.map (fun kv => (kv.1, (alookup r kv.1).getD kv.2)) ++
    r.filter (fun kv => !containsKey l kv.1)

/-- The replacement string for a byte blob of length `n`:
`<bytes of length N>`. -/
def bytesDescriptor (n : Nat) : Str :=
  "<bytes of length ".data ++ (Nat.repr n).data ++ ">".data

mutual

/-- `sanitize_for_json` from `graph_types.py`: recursively walk dicts and
lists; replace every byte blob by the string `<bytes of length N>`; leave
everything else unchanged. -/
def sanitize_for_json : Value → Value
  | .vnull => .vnull
  | .vbool b => .vbool b
  | .vint n => .vint n
  | .vstr s => .vstr s
  | .vbytes b => .vstr (bytesDescriptor b.length)
  | .vlist es => .vlist (sanitizeList es)
  | .vdict es => .vdict (sanitizeEntries es)

/-- The list case of `sanitize_for_json`. -/
def sanitizeList : List Value → List Value
  | [] => []
  | v :: vs => sanitize_for_json v :: sanitizeList vs

/-- The dict case of `sanitize_for_json` (values sanitized, keys kept). -/
def sanitizeEntries : List (Str × Value) → List (Str × Value)
  | [] => []
  | (k, v) :: es => (k, sanitize_for_json v) :: sanitizeEntries es

end

/-! ## Value resolver (`_resolve_value_from_state` in `graph_types.py`) -/

/-- Full split of a character list on `.`, Python `key_string.split('.')`
(never returns the empty list; keeps empty segments). -/
def splitDots : Str → List Str
  | [] => [[]]
  | c :: rest =>
    if c = '.' then [] :: splitDots rest
    else
      match splitDots rest with
      | s :: ss => (c :: s) :: ss
      | [] => [[c]]

/-- Python `key_string.split('.', 1)`: when the string contains a dot,
the part before the first dot and the rest; otherwise `none`. -/
def splitFirstDot : Str → Option (Str × Str)
  | [] => none
  | c :: rest =>
    if c = '.' then some ([], rest)
    else
      match splitFirstDot rest with
      | some (a, b) => some (c :: a, b)
      | none => none

/-- Python `key_string.startswith("'") and key_string.endswith("'")`
(true for the one-character string `'` as in Python). -/
def isQuoted (s : Str) : Bool :=
  match s with
  | [] => false
  | c :: rest =>
    c = squote &&
      match rest.getLast? with
      | some d => d = squote
      | none => c = squote

/-- Python `key_string[1:-1]`. -/
def strInner (s : Str) : Str := (s.drop 1).dropLast

/-- Resolution over the pre-split dotted path: a single remaining segment
gets the `item` / quoted-literal / bare-key treatment; with more segments
the head is looked up and, when the value is a dict, resolution recurses
into it, otherwise the result is `None`. -/
def resolveSegs (d : DictV) : List Str → Value
  | [] => .vnull
  | [s] =>
    if s = "item".data then dictGet d ("item".data)
    else if isQuoted s then .vstr (strInner s) else dictGet d s
  | s :: rest =>
    match dictGet d s with
    | .vdict entries => resolveSegs entries rest
    | _ => .vnull

/-- `_resolve_value_from_state` from `graph_types.py`.  The source recurses
with `key_string.split('.', 1)`; here the dotted path is fully split first,
which is equivalent because the literal / quoted / bare checks only ever
fire on a dot-free remainder (see `resolve_split_once_eq` below, which
proves this definition equal to the literal transcription of the source's
split-once recursion). -/
def _resolve_value_from_state (state_data : DictV) (key_string : Str) : Value :=
  resolveSegs state_data (splitDots key_string)

/-- `splitFirstDot` shortens its second component (termination measure for
the split-once recursion). -/
theorem splitFirstDot_length {s a b : Str} (h : splitFirstDot s = some (a, b)) :
    b.length < s.length := by
  induction s generalizing a b with
  | nil => simp [splitFirstDot] at h
  | cons c rest ih =>
    by_cases hc : c = '.'
    · simp [splitFirstDot, hc] at h
      simp [← h.2]
    · simp only [splitFirstDot, hc, if_false] at h
      cases hsp : splitFirstDot rest with
      | none => simp [hsp] at h
      | some p =>
        simp [hsp] at h
        have := ih (a := p.1) (b := p.2) (by simp [hsp])
        simp [← h.2]
        omega

/-- Literal transcription of the source's recursion: check `item`, then
split once on the first dot and recurse into dict values, then the quoted
literal, then the bare key. -/
def resolveSplitOnce (state_data : DictV) (key_string : Str) : Value :=
  if key_string = "item".data then dictGet state_data ("item".data)
  else
    match h : splitFirstDot key_string with
    | some pc =>
      match dictGet state_data pc.1 with
      | .vdict entries => resolveSplitOnce entries pc.2
      | _ => .vnull
    | none =>
      if isQuoted key_string then .vstr (strInner key_string)
      else dictGet state_data key_string
termination_by key_string.length
decreasing_by exact splitFirstDot_length h

/-- When the string contains no dot, the full split is the singleton. -/
theorem splitDots_of_splitFirstDot_none {s : Str} (h : splitFirstDot s = none) :
    splitDots s = [s] := by
  induction s with
  | nil => simp [splitDots]
  | cons c rest ih =>
    by_cases hc : c = '.'
    · simp [splitFirstDot, hc] at h
    · simp only [splitFirstDot, hc, if_false] at h
      cases hsp : splitFirstDot rest with
      | none => simp [splitDots, hc, ih hsp]
      | some p => simp [hsp] at h

/-- Splitting once and then fully splitting the remainder agrees with the
full split. -/
theorem splitDots_of_splitFirstDot_some {s a b : Str}
    (h : splitFirstDot s = some (a, b)) :
    splitDots s = a :: splitDots b := by
  induction s generalizing a b with
  | nil => simp [splitFirstDot] at h
  | cons c rest ih =>
    by_cases hc : c = '.'
    · simp [splitFirstDot, hc] at h
      simp [splitDots, hc, h.1, h.2]
    · simp only [splitFirstDot, hc, if_false] at h
      cases hsp : splitFirstDot rest with
      | none => simp [hsp] at h
      | some p =>
        simp [hsp] at h
        have := ih (a := p.1) (b := p.2) (by simp [hsp])
        simp [splitDots, hc, this, ← h.1, ← h.2]

/-- `splitDots` never returns the empty list. -/
theorem splitDots_ne_nil (s : Str) : splitDots s ≠ [] := by
  cases s with
  | nil => simp [splitDots]
  | cons c rest =>
    by_cases hc : c = '.'
    · simp [splitDots, hc]
    · simp only [splitDots, hc, if_false]
      cases splitDots rest <;> simp

/-- The pre-split resolver agrees with the literal split-once transcription
of `_resolve_value_from_state`. -/
theorem resolve_split_once_eq (state_data : DictV) (key_string : Str) :
    resolveSplitOnce state_data key_string =
      _resolve_value_from_state state_data key_string := by
  rw [resolveSplitOnce]
  by_cases hi : key_string = "item".data
  · subst hi
    simp [_resolve_value_from_state]
    have : splitDots ("item".data) = ["item".data] := by decide
    rw [this]
    simp [resolveSegs]
  · simp only [hi, if_false]
    cases hsp : splitFirstDot key_string with
    | none =>
      rw [_resolve_value_from_state, splitDots_of_splitFirstDot_none hsp]
      simp [resolveSegs, hi]
    | some pc =>
      rw [_resolve_value_from_state, splitDots_of_splitFirstDot_some hsp]
      cases hnn : splitDots pc.2 with
      | nil => exact absurd hnn (splitDots_ne_nil pc.2)
      | cons t ts =>
        simp only [resolveSegs]
        cases dictGet state_data pc.1 with
        | vdict entries =>
          have := resolve_split_once_eq entries pc.2
          rw [_resolve_value_from_state, hnn] at this
          simpa using this
        | vnull => simp
        | vbool b => simp
        | vint n => simp
        | vstr s => simp
        | vbytes b => simp
        | vlist es => simp
termination_by key_string.length
decreasing_by exact splitFirstDot_length hsp

/-! ## State type and reducers (`GraphState` in `graph_types.py`) -/

/-- The `message` / `traceback` pair formatted from a caught exception
(`str(e)` and `traceback.format_exc()`). -/
structure ErrDetails where
  message : Str
  traceback : Str

/-- One entry of `error_info`:
`{"failed_step": step_name, "message": …, "traceback": …}`. -/
structure ErrorRecord where
  failed_step : Str
  message : Str
  traceback : Str

/-- A debug record as assembled by the node executor wrapper.  The Python
dict has no `is_child` key for parent records; that absence is modelled as
`is_child = false`.  `duration_ms` is wall-clock timing, which is
environmental; the model uses `0` throughout (no claim mentions a concrete
duration). -/
structure DebugRecord where
  step_name : Str
  type : Str
  status : Str
  duration_ms : Nat
  inputs : Value
  outputs : Value
  error : Option ErrDetails
  is_child : Bool

/-- `GraphState` from `graph_types.py`: the run's state, with the four
channels `execution_log`, `debug_log`, `error_info` (reducer: list
concatenation via `operator.add`) and `workflow_data` (reducer:
`merge_workflow_data`, a shallow dict merge). -/
structure GraphState where
  execution_log : List Str
  debug_log : List DebugRecord
  error_info : List ErrorRecord
  workflow_data : DictV

/-- A partial update returned by a node: the subset of channels the node
writes (a Python dict that may omit any of the four keys). -/
structure StateUpdate where
  execution_log : Option (List Str) := none
  debug_log : Option (List DebugRecord) := none
  error_info : Option (List ErrorRecord) := none
  workflow_data : Option DictV := none

/-- The empty update `{}`. -/
def emptyUpdate : StateUpdate := {}

/-- `merge_workflow_data` from `graph_types.py`: `{**left, **right}`. -/
def merge_workflow_data (left right : DictV) : DictV := mergeDict left right

/-- The engine's field-wise reducer application: each channel present in
the update is combined with the current state (`operator.add` on the three
log lists, `merge_workflow_data` on `workflow_data`); absent channels are
left untouched. -/
def applyUpdate (s : GraphState) (u : StateUpdate) : GraphState where
  execution_log :=
    match u.execution_log with
    | none => s.execution_log
    | some l => s.execution_log ++ l
  debug_log :=
    match u.debug_log with
    | none => s.debug_log
    | some l => s.debug_log ++ l
  error_info :=
    match u.error_info with
    | none => s.error_info
    | some l => s.error_info ++ l
  workflow_data :=
    match u.workflow_data with
    | none => s.workflow_data
    | some d => merge_workflow_data s.workflow_data d

/-- Applying the empty update leaves the state unchanged. -/
theorem applyUpdate_empty (s : GraphState) : applyUpdate s emptyUpdate = s := rfl

/-- In a dict whose keys are unique, looking up the key of any entry finds
that entry's value. -/
theorem alookup_self_of_nodup {d : DictV} (h : (d.map Prod.fst).Nodup) :
    ∀ kv ∈ d, alookup d kv.1 = some kv.2 := by
  induction d with
  | nil => intro kv hkv; simp at hkv
  | cons hd tl ih =>
    simp only [List.map_cons, List.nodup_cons] at h
    intro kv hkv
    rcases List.mem_cons.mp hkv with rfl | hmem
    · simp [alookup]
    · have hne : ¬ hd.1 = kv.1 := by
        intro he
        apply h.1
        rw [he]
        exact List.mem_map_of_mem Prod.fst hmem
      simp only [alookup, if_neg hne]
      exact ih h.2 kv hmem

/-- Every entry's key is contained in the dict. -/
theorem containsKey_of_mem {d : DictV} {kv : Str × Value} (h : kv ∈ d) :
    containsKey d kv.1 = true := by
  induction d with
  | nil => simp at h
  | cons hd tl ih =>
    rcases List.mem_cons.mp h with rfl | hmem
    · simp [containsKey, alookup]
    · by_cases he : hd.1 = kv.1
      · simp [containsKey, alookup, he]
      · simpa [containsKey, alookup, he] using ih hmem

/-- Merging a unique-keyed dict with itself is the identity (Python
`{**d, **d} == d`). -/
theorem mergeDict_self {d : DictV} (h : (d.map Prod.fst).Nodup) :
    mergeDict d d = d := by
  unfold mergeDict
  have hf : d.filter (fun kv => !containsKey d kv.1) = [] := by
    apply List.filter_eq_nil_iff.mpr
    intro kv hkv
    simp [containsKey_of_mem hkv]
  rw [hf, List.append_nil]
  have : ∀ kv ∈ d, (fun kv : Str × Value => (kv.1, (alookup d kv.1).getD kv.2)) kv = id kv := by
    intro kv hkv
    simp [alookup_self_of_nodup h kv hkv]
  rw [List.map_congr_left this, List.map_id]

/-! ## Node executor wrapper (`_node_wrapper` in `node_factory.py`) -/

/-- The parameters of a step that the wrapper itself inspects. -/
structure Params where
  output_key : Option Str := none
  map_input : Option Str := none

/-- What a node logic handler returns:
`(output, resolved_inputs, extra_records)`. -/
abbrev LogicOut := Value × Value × List DebugRecord

/-- A node logic handler, as invoked by the wrapper's `logic_caller`: it
receives the context dict (`workflow_data`, possibly overlaid with the
mapped `item` / `map_index`) and either returns a `LogicOut` or raises. -/
abbrev LogicFn := DictV → Except ErrDetails LogicOut

/-- An exception raised by the wrapper itself.  The `traceback.format_exc()`
text is environmental and modelled as a fixed placeholder. -/
def raisedErr (msg : Str) : ErrDetails := ⟨msg, "<traceback>".data⟩

/-- Runs the handler once per list element, overlaying
`{"item": item, "map_index": index}` onto the base `workflow_data` for each
iteration (source: `run_logic_for_item`); iteration results are collected
in input order (`asyncio.gather` preserves order; an exception in any
iteration propagates — modelled as the first failing iteration in list
order). -/
def runIterations (logic : LogicFn) (workflow_data : DictV) :
    List Value → Nat → Except ErrDetails (List LogicOut)
  | [], _ => .ok []
  | item :: rest, index =>
    match logic (mergeDict workflow_data
        [("item".data, item), ("map_index".data, .vint index)]) with
    | .error e => .error e
    | .ok r =>
      match runIterations logic workflow_data rest (index + 1) with
      | .error e => .error e
      | .ok rs => .ok (r :: rs)

/-- The per-iteration child records of a mapped node: step name
`<step> [Run i+1/n]`, type `mapped_<type>`, status `Completed`,
`duration_ms` literally `0` in the source, the iteration's raw inputs and
output, and `is_child: true`. -/
def childRecords (step_name step_type : Str) (results : List LogicOut)
    (total : Nat) : List DebugRecord :=
  results.enum.map (fun ir =>
    { step_name := step_name ++ " [Run ".data ++ (Nat.repr (ir.1 + 1)).data ++
        "/".data ++ (Nat.repr total).data ++ "]".data
      type := "mapped_".data ++ step_type
      status := "Completed".data
      duration_ms := 0
      inputs := ir.2.2.1
      outputs := ir.2.1
      error := none
      is_child := true })

/-- A handler output used directly as the `workflow_data` update when the
step has no `output_key` (the source then requires it to be a mapping;
a non-mapping output would only fault later, inside the engine's reducer —
no claim exercises that path). -/
def Value.asDict : Value → DictV
  | .vdict es => es
  | _ => []

/-- `{params['output_key']: output} if params.get('output_key') else output`
— note Python truthiness: an *empty* `output_key` string also falls through
to the raw output. -/
def outputsByKey (output_key : Option Str) (output : Value) : DictV :=
  match output_key with
  | some ok => if ok = [] then output.asDict else [(ok, output)]
  | none => output.asDict

/-- The `try:` block of `_node_wrapper` in `node_factory.py`: computes
`(outputs, sanitized_inputs, additional_logs)` or raises.

* `map_input` present: resolve it against `workflow_data`; a non-list raises
  `TypeError`; run the handler per element; aggregate the per-element
  outputs under `params['output_key']` (a missing `output_key` raises
  `KeyError` at this point); `sanitized_inputs` is the synthetic
  `{"map_source", "item_count"}` dict; `additional_logs` is every
  iteration's extra records (in iteration order) followed by the per-
  iteration child records.
* `map_input` absent: one handler call on the bare `workflow_data`;
  `sanitized_inputs` is the JSON-safety pass over the handler's resolved
  inputs. -/
def runBody (step_name step_type : Str) (params : Params) (logic : LogicFn)
    (workflow_data : DictV) : Except ErrDetails (DictV × Value × List DebugRecord) :=
  match params.map_input with
  | some map_input_key =>
    match _resolve_value_from_state workflow_data map_input_key with
    | .vlist items =>
      match runIterations logic workflow_data items 0 with
      | .error e => .error e
      | .ok results =>
        match params.output_key with
        | none => .error (raisedErr ([squote] ++ "output_key".data ++ [squote]))
        | some ok =>
          .ok ([(ok, .vlist (results.map (fun r => r.1)))],
            .vdict [("map_source".data, .vstr map_input_key),
              ("item_count".data, .vint items.length)],
            results.flatMap (fun r => r.2.2) ++
              childRecords step_name step_type results items.length)
    | _ =>
      .error (raisedErr ("Map input ".data ++ [squote] ++ map_input_key ++
        [squote] ++ " must resolve to a list.".data))
  | none =>
    match logic workflow_data with
    | .error e => .error e
    | .ok (output, resolved_inputs, additional_logs) =>
      .ok (outputsByKey params.output_key output,
        sanitize_for_json resolved_inputs, additional_logs)

/-- The `Failed` debug record of the `except` branch.  At the moment any
exception is raised, the local `sanitized_inputs` is still the initial `{}`
(both branches only assign it after the point that can raise), so the
record's inputs are always the
`{"error": "Could not resolve inputs before failure."}` placeholder. -/
def failedRecord (step_name step_type : Str) (e : ErrDetails) : DebugRecord where
  step_name := step_name
  type := step_type
  status := "Failed".data
  duration_ms := 0
  inputs := .vdict [("error".data,
    .vstr "Could not resolve inputs before failure.".data)]
  outputs := .vdict []
  error := some e
  is_child := false

/-- The parent `Completed` debug record emitted on success. -/
def completedRecord (step_name step_type : Str) (sanitized_inputs : Value)
    (outputs : DictV) : DebugRecord where
  step_name := step_name
  type := step_type
  status := "Completed".data
  duration_ms := 0
  inputs := sanitized_inputs
  outputs := .vdict outputs
  error := none
  is_child := false

/-- `_node_wrapper` from `node_factory.py`: the fail-fast gate, then the
body; on success the update writes `workflow_data` and `debug_log` (parent
record first, then `additional_logs`); on an exception the update writes a
single `Failed` record and a single `error_info` entry. -/
def _node_wrapper (step_name step_type : Str) (params : Params) (logic : LogicFn)
    (state : GraphState) : StateUpdate :=
  if !state.error_info.isEmpty then emptyUpdate
  else
    match runBody step_name step_type params logic state.workflow_data with
    | .ok (outputs, sanitized_inputs, additional_logs) =>
      { debug_log := some (completedRecord step_name step_type sanitized_inputs
          outputs :: additional_logs),
        workflow_data := some outputs }
    | .error e =>
      { debug_log := some [failedRecord step_name step_type e],
        error_info := some [⟨step_name, e.message, e.traceback⟩] }

/-! ## Node logic handlers (`node_logic.py`) -/

/-- Python `v is None`. -/
def Value.isNull : Value → Bool
  | .vnull => true
  | _ => false

/-- `isinstance(value, dict) and 'mime_type' in value and 'data' in value`. -/
def isMimePart : Value → Bool
  | .vdict es => containsKey es "mime_type".data && containsKey es "data".data
  | _ => false

/-- `json.dumps(value, indent=2) if isinstance(value, (dict, list)) else value`
— `dumps` abstracts the mechanical JSON serialisation. -/
def stringifyForPrompt (dumps : Value → Str) : Value → Value
  | .vdict es => .vstr (dumps (.vdict es))
  | .vlist es => .vstr (dumps (.vlist es))
  | v => v

/-- `_llm_logic` from `node_logic.py`, with its external collaborators
abstracted: `dumps` models `json.dumps`, `loadTemplate` models
`load_prompt_template` (prompt file read plus placeholder substitution),
`callGemini` models `call_gemini_async` and returns the client's parsed
result dict.  The handler resolves `input_mapping` against the context,
raises `ValueError` when every resolved value is `None`, partitions the
resolved values into multimodal parts and template inputs, calls the
client with the rendered prompt first, and returns
`result.get('response_json', {})` together with the *raw* resolved inputs
and no extra records. -/
def _llm_logic (dumps : Value → Str) (loadTemplate : DictV → Str)
    (callGemini : List Value → DictV)
    (input_mapping : List (Str × Str)) (context_data : DictV) :
    Except ErrDetails LogicOut :=
  let resolved_inputs := input_mapping.map
    (fun p => (p.1, _resolve_value_from_state context_data p.2))
  if resolved_inputs.all (fun p => p.2.isNull) then
    .error (raisedErr "All resolved inputs for LLM node are None.".data)
  else
    let prompt_parts := (resolved_inputs.filter (fun p => isMimePart p.2)).map
      (fun p => p.2)
    let p_inputs := (resolved_inputs.filter (fun p => !isMimePart p.2)).map
      (fun p => (p.1, stringifyForPrompt dumps p.2))
    let text_prompt := loadTemplate p_inputs
    let result := callGemini (.vstr text_prompt :: prompt_parts)
    let output :=
      match alookup result "response_json".data with
      | some v => v
      | none => .vdict []
    .ok (output, .vdict resolved_inputs, [])

/-- A compiled sub-graph, abstracted as an environment describing what each
*drive* of the graph does: `finalState k` is the final state and `events k`
the internal event stream of the `k`-th time the graph is driven in the
handler (the source drives the same compiled `Runnable` once with
`astream_events` and then once more with `ainvoke`; an effectful or
nondeterministic graph may behave differently on each drive). -/
structure SubGraph where
  finalState : Nat → GraphState
  events : Nat → List Value

/-- One forwarded sub-workflow event:
`{"parent_step": …, "sub_workflow": …, "original_event": …, "map_index": …}`. -/
structure SubWorkflowEvent where
  parent_step : Str
  sub_workflow : Str
  original_event : Value
  map_index : Value

/-- `_workflow_logic` from `node_logic.py` (the cache lookup / on-demand
compilation of the sub-graph is abstracted into the given `SubGraph`).
Returns the handler result, the list of events emitted onto the outer
queue, and the number of times the sub-graph was driven: the
`astream_events` loop drives it a first time (drive `0`, whose events are
forwarded, annotated with `parent_step`, `sub_workflow` and
`context_data.get("map_index")`), and `ainvoke` then drives it a second
time (drive `1`, whose final state supplies the error check, the
`output_mapping` projection and the forwarded `debug_log`). -/
def _workflow_logic (sub_graph : SubGraph) (step_name sub_workflow_name : Str)
    (input_mapping output_mapping : List (Str × Str)) (context_data : DictV) :
    Except ErrDetails LogicOut × List SubWorkflowEvent × Nat :=
  let sub_initial_data := input_mapping.map
    (fun p => (p.2, _resolve_value_from_state context_data p.1))
  let map_index := dictGet context_data "map_index".data
  let emitted := (sub_graph.events 0).map
    (fun e => SubWorkflowEvent.mk step_name sub_workflow_name e map_index)
  let final_sub_state := sub_graph.finalState 1
  match final_sub_state.error_info with
  | sub_error :: _ =>
    (.error (raisedErr ("Sub-workflow ".data ++ [squote] ++ sub_workflow_name ++
      [squote] ++ " failed at step ".data ++ [squote] ++ sub_error.failed_step ++
      [squote] ++ ": ".data ++ sub_error.message)), emitted, 2)
  | [] =>
    let parent_outputs := output_mapping.map
      (fun p => (p.2, dictGet final_sub_state.workflow_data p.1))
    (.ok (.vdict parent_outputs, .vdict sub_initial_data,
      final_sub_state.debug_log), emitted, 2)

/-! ## Workflow compiler (`LangGraphBuilder.build` in `langgraph_builder.py`) -/

/-- A step of the workflow document (`params` flattened to the attributes
the compiler and wrapper read). -/
structure StepParams where
  output_key : Option Str := none
  input_mapping : List (Str × Str) := []
  map_input : Option Str := none
  output_mapping : List (Str × Str) := []
  routing_map : List (Str × Str) := []
  condition_key : Option Str := none

/-- One entry of the document's `steps` list. -/
structure Step where
  name : Str
  type : Str
  dependencies : List Str := []
  params : StepParams := {}

/-- The sentinel start node (`langgraph.graph.START`). -/
def STARTNODE : Str := "__start__".data

/-- The sentinel end node (`langgraph.graph.END`). -/
def ENDNODE : Str := "__end__".data

/-- The compiled topology: the nodes added via `add_node`, the
unconditional edges added via `add_edge`, and the conditional branches
added via `add_conditional_edges` (source node, condition key, routing
map). -/
structure CompiledGraph where
  nodes : List Str
  edges : List (Str × Str)
  conditional_edges : List (Str × Str × List (Str × Str))

/-- `LangGraphBuilder._build_output_map`: every truthy `output_key` maps to
its producing step, and for workflow steps every value of `output_mapping`
maps to the step as well. -/
def _build_output_map (steps : List Step) : List (Str × Str) :=
  steps.foldl (fun output_map step =>
    let m1 :=
      match step.params.output_key with
      | some ok => if ok = [] then output_map else dictSet output_map ok step.name
      | none => output_map
    if step.type = "workflow".data then
      step.params.output_mapping.foldl (fun m p => dictSet m p.2 step.name) m1
    else m1) []

/-- The set of router targets: union of all routers' `routing_map` values
(kept as a list; only membership is ever used, as in the Python `set`). -/
def routerTargets (steps : List Step) : List Str :=
  steps.flatMap (fun s =>
    if s.type = "conditional_router".data then
      s.params.routing_map.map (fun p => p.2)
    else [])

/-- The `parent_set` of a step: the producing steps of its declared
dependencies, deduplicated (the Python set comprehension
`{output_to_step_map[dep] for dep in dependencies if dep in output_to_step_map}`). -/
def sourceNodes (output_map : List (Str × Str)) (dependencies : List Str) :
    List Str :=
  (dependencies.filterMap (alookup output_map)).eraseDups

/-- The per-step edge loop of `build`: a dependency-free step gets a
`START → step` edge unless it is a router target; otherwise one direct
edge `parent → step` per member of its `parent_set`. -/
def dependencyEdges (steps : List Step) : List (Str × Str) :=
  let output_map := _build_output_map steps
  let router_targets := routerTargets steps
  steps.flatMap (fun step =>
    if step.dependencies = [] then
      if router_targets.contains step.name then [] else [(STARTNODE, step.name)]
    else
      (sourceNodes output_map step.dependencies).map (fun src => (src, step.name)))

/-- The conditional edges: one `add_conditional_edges` per router, keyed by
its `condition_key` with its `routing_map` (a missing `condition_key` would
raise at build time in the source; modelled as the empty key). -/
def conditionalEdges (steps : List Step) : List (Str × Str × List (Str × Str)) :=
  steps.filterMap (fun step =>
    if step.type = "conditional_router".data then
      some (step.name, step.params.condition_key.getD [], step.params.routing_map)
    else none)

/-- `dependency_sources` of `build`: producers of any declared dependency,
every router, and every router target that names a step. -/
def dependencySources (steps : List Step) : List Str :=
  let output_map := _build_output_map steps
  let all_step_names := steps.map (fun s => s.name)
  steps.flatMap (fun step => step.dependencies.filterMap (alookup output_map)) ++
    steps.flatMap (fun step =>
      if step.type = "conditional_router".data then
        step.name :: (step.params.routing_map.map (fun p => p.2)).filter
          (fun t => all_step_names.contains t)
      else [])

/-- The terminal edges of `build`: every non-router step that is not a
dependency source gets an edge to `END`. -/
def terminalEdges (steps : List Step) : List (Str × Str) :=
  let ds := dependencySources steps
  ((steps.map (fun s => s.name)).filter (fun n => !ds.contains n)).filterMap
    (fun n =>
      match steps.find? (fun s => s.name == n) with
      | some s =>
        if s.type = "conditional_router".data then none else some (n, ENDNODE)
      | none => none)

/-- `LangGraphBuilder.build`: one node per step (routers included), the
dependency/START edges, the routers' conditional edges, and the terminal
edges.  No other node is ever added: in particular the builder synthesizes
no join nodes — fan-in relies on the engine waiting on all incoming direct
edges. -/
def build (steps : List Step) : CompiledGraph where
  nodes := steps.map (fun s => s.name)
  edges := dependencyEdges steps ++ terminalEdges steps
  conditional_edges := conditionalEdges steps

/-! ## Event streaming layer (`run_workflow_streaming` in
`workflow_orchestrator.py`) -/

/-- An event yielded to the observer. -/
inductive StreamEvent where
  | lifecycle_update (step_name : Str) (status : Str)
  | log (record : DebugRecord)
  | result (final_state : GraphState)
  | sub_workflow_event (payload : SubWorkflowEvent)

/-- Python `str.upper()` (ASCII suffices for the statuses involved). -/
def pyUpper (s : Str) : Str := s.map Char.toUpper

/-- The `on_chain_end` arm of `run_workflow_streaming`: when the node's
output is a dict whose `debug_log` entry is present and non-empty, take
`node_output["debug_log"][0]` and yield one `log` event with it followed by
one `lifecycle_update` with its step name and upper-cased status; otherwise
yield nothing. -/
def handleChainEnd (node_output : Option StateUpdate) : List StreamEvent :=
  match node_output with
  | some u =>
    match u.debug_log with
    | some (log_data :: _) =>
      [.log log_data,
        .lifecycle_update log_data.step_name (pyUpper log_data.status)]
    | _ => []
  | none => []

/-! ## Router nodes -/

/-- The node emitted for a `conditional_router` step in `build`:
`lambda state: state`.  As an update dict this writes *all four* channels
back into the state, so the engine's reducers are applied to each. -/
def routerNode (state : GraphState) : StateUpdate where
  execution_log := some state.execution_log
  debug_log := some state.debug_log
  error_info := some state.error_info
  workflow_data := some state.workflow_data

/-! ## Claim C5 — the fail-fast gate -/

/-- C5: whenever the node executor wrapper is invoked on a state whose
`error_info` list is non-empty, it returns the empty update — contributing
no `workflow_data` keys and no `debug_log`, `execution_log` or `error_info`
entries — so applying the update leaves the state unchanged and the node
no-ops. -/
theorem node_wrapper_fail_fast_gate (step_name step_type : Str)
    (params : Params) (logic : LogicFn) (state : GraphState)
    (h : state.error_info ≠ []) :
    _node_wrapper step_name step_type params logic state = emptyUpdate ∧
      applyUpdate state (_node_wrapper step_name step_type params logic state) =
        state := by
  have hb : state.error_info.isEmpty = false := by
    cases hs : state.error_info with
    | nil => exact absurd hs h
    | cons a l => rfl
  constructor
  · simp [_node_wrapper, hb]
  · simp [_node_wrapper, hb, applyUpdate_empty]

/-- C5 witness: a concrete state carrying one error record makes the
wrapper return the empty update and leave the state unchanged. -/
theorem node_wrapper_fail_fast_gate_witness :
    (GraphState.mk [] [] [⟨"s".data, "m".data, "t".data⟩]
        [("k".data, .vint 1)]).error_info ≠ [] ∧
    (_node_wrapper "n".data "code".data {} (fun _ => .ok (.vnull, .vnull, []))
        (GraphState.mk [] [] [⟨"s".data, "m".data, "t".data⟩]
          [("k".data, .vint 1)]) = emptyUpdate ∧
      applyUpdate (GraphState.mk [] [] [⟨"s".data, "m".data, "t".data⟩]
          [("k".data, .vint 1)])
        (_node_wrapper "n".data "code".data {} (fun _ => .ok (.vnull, .vnull, []))
          (GraphState.mk [] [] [⟨"s".data, "m".data, "t".data⟩]
            [("k".data, .vint 1)])) =
        GraphState.mk [] [] [⟨"s".data, "m".data, "t".data⟩]
          [("k".data, .vint 1)]) :=
  ⟨by simp,
    node_wrapper_fail_fast_gate "n".data "code".data {}
      (fun _ => .ok (.vnull, .vnull, []))
      (GraphState.mk [] [] [⟨"s".data, "m".data, "t".data⟩]
        [("k".data, .vint 1)]) (by simp)⟩

/-! ## Claim C9 — a raising handler writes exactly one Failed record, one
error entry, and no workflow_data -/

/-- C9: for every node, if the body raises (the handler itself, the
`map_input` type check, or the `output_key` lookup), the wrapper's update
contains exactly one `Failed` debug record and one `error_info` entry and
no `workflow_data` key at all — a failing node never writes any output. -/
theorem node_wrapper_failure_update (step_name step_type : Str)
    (params : Params) (logic : LogicFn) (state : GraphState) (e : ErrDetails)
    (hgate : state.error_info = [])
    (hrun : runBody step_name step_type params logic state.workflow_data =
      .error e) :
    _node_wrapper step_name step_type params logic state =
      { debug_log := some [failedRecord step_name step_type e],
        error_info := some [⟨step_name, e.message, e.traceback⟩] } ∧
    (failedRecord step_name step_type e).status = "Failed".data ∧
    (_node_wrapper step_name step_type params logic state).workflow_data =
      none := by
  have hb : state.error_info.isEmpty = true := by rw [hgate]; rfl
  refine ⟨?_, rfl, ?_⟩ <;> simp [_node_wrapper, hb, hrun]

/-- C9 witness: a concrete handler that raises produces exactly the
single-Failed-record update with no workflow_data. -/
theorem node_wrapper_failure_update_witness :
    (GraphState.mk [] [] [] [("k".data, .vint 1)]).error_info = [] ∧
    runBody "n".data "code".data {} (fun _ => .error ⟨"boom".data, "tb".data⟩)
      (GraphState.mk [] [] [] [("k".data, .vint 1)]).workflow_data =
      .error ⟨"boom".data, "tb".data⟩ ∧
    (_node_wrapper "n".data "code".data {}
        (fun _ => .error ⟨"boom".data, "tb".data⟩)
        (GraphState.mk [] [] [] [("k".data, .vint 1)]) =
      { debug_log := some [failedRecord "n".data "code".data
          ⟨"boom".data, "tb".data⟩],
        error_info := some [⟨"n".data, "boom".data, "tb".data⟩] } ∧
      (failedRecord "n".data "code".data
        ⟨"boom".data, "tb".data⟩).status = "Failed".data ∧
      (_node_wrapper "n".data "code".data {}
          (fun _ => .error ⟨"boom".data, "tb".data⟩)
          (GraphState.mk [] [] [] [("k".data, .vint 1)])).workflow_data =
        none) :=
  ⟨rfl, rfl,
    node_wrapper_failure_update "n".data "code".data {}
      (fun _ => .error ⟨"boom".data, "tb".data⟩)
      (GraphState.mk [] [] [] [("k".data, .vint 1)])
      ⟨"boom".data, "tb".data⟩ rfl rfl⟩

/-! ## Claim C10 — an llm step with an empty input_mapping always raises -/

/-- C10: for every llm step whose `input_mapping` is empty, the handler
unconditionally raises the all-inputs-are-None `ValueError` — `all()` over
the empty mapping is vacuously true — regardless of the context and of the
external collaborators, so such a step can never complete successfully. -/
theorem llm_logic_empty_mapping_raises (dumps : Value → Str)
    (loadTemplate : DictV → Str) (callGemini : List Value → DictV)
    (context_data : DictV) :
    _llm_logic dumps loadTemplate callGemini [] context_data =
      .error (raisedErr "All resolved inputs for LLM node are None.".data) :=
  rfl

/-! ## Claim C3 — the streaming layer emits only the first debug record -/

/-- C3 counterexample: a node whose `on_chain_end` output carries two debug
records yields only two stream events (one `log` and one
`lifecycle_update`), not the three the claim requires (one `log` per record
plus the `lifecycle_update`). -/
theorem chain_end_first_record_only_counterexample :
    handleChainEnd (some (StateUpdate.mk none (some
        [⟨"s".data, "code".data, "Completed".data, 0, .vnull, .vnull, none, false⟩,
         ⟨"s".data, "code".data, "Completed".data, 0, .vnull, .vnull, none, true⟩])
        none none)) =
      [.log ⟨"s".data, "code".data, "Completed".data, 0, .vnull, .vnull, none, false⟩,
       .lifecycle_update "s".data "COMPLETED".data] ∧
    handleChainEnd (some (StateUpdate.mk none (some
        [⟨"s".data, "code".data, "Completed".data, 0, .vnull, .vnull, none, false⟩,
         ⟨"s".data, "code".data, "Completed".data, 0, .vnull, .vnull, none, true⟩])
        none none)) ≠
      [.log ⟨"s".data, "code".data, "Completed".data, 0, .vnull, .vnull, none, false⟩,
       .log ⟨"s".data, "code".data, "Completed".data, 0, .vnull, .vnull, none, true⟩,
       .lifecycle_update "s".data "COMPLETED".data] := by
  constructor
  · rfl
  · intro h
    exact absurd (congrArg List.length h) (by decide)

/-- C3 (amended): for every `on_chain_end` of a node that produced at least
one debug record, the streaming layer emits exactly one `log` event carrying
the *first* record of the node's `debug_log`, followed by one
`lifecycle_update` with that first record's step name and upper-cased
status; the remaining records are not emitted. -/
theorem chain_end_emits_first_record (u : StateUpdate) (log_data : DebugRecord)
    (rest : List DebugRecord) (h : u.debug_log = some (log_data :: rest)) :
    handleChainEnd (some u) =
      [.log log_data,
        .lifecycle_update log_data.step_name (pyUpper log_data.status)] := by
  simp [handleChainEnd, h]

/-- C3 witness: a concrete two-record output yields the first record's
`log` event and its upper-cased lifecycle update. -/
theorem chain_end_emits_first_record_witness :
    (StateUpdate.mk none (some
        [⟨"s".data, "code".data, "Failed".data, 0, .vnull, .vnull, none, false⟩,
         ⟨"t".data, "code".data, "Completed".data, 0, .vnull, .vnull, none, true⟩])
        none none).debug_log = some
        (⟨"s".data, "code".data, "Failed".data, 0, .vnull, .vnull, none, false⟩ ::
         [⟨"t".data, "code".data, "Completed".data, 0, .vnull, .vnull, none, true⟩]) ∧
    handleChainEnd (some (StateUpdate.mk none (some
        [⟨"s".data, "code".data, "Failed".data, 0, .vnull, .vnull, none, false⟩,
         ⟨"t".data, "code".data, "Completed".data, 0, .vnull, .vnull, none, true⟩])
        none none)) =
      [.log ⟨"s".data, "code".data, "Failed".data, 0, .vnull, .vnull, none, false⟩,
       .lifecycle_update "s".data "FAILED".data] :=
  ⟨rfl,
    chain_end_emits_first_record _
      ⟨"s".data, "code".data, "Failed".data, 0, .vnull, .vnull, none, false⟩
      [⟨"t".data, "code".data, "Completed".data, 0, .vnull, .vnull, none, true⟩]
      rfl⟩

/-! ## Claim C6 — quoted literals versus the dotted rule -/

/-- A dot-free string has no first-dot split. -/
theorem splitFirstDot_none_of_not_contains {s : Str}
    (h : s.contains '.' = false) : splitFirstDot s = none := by
  induction s with
  | nil => rfl
  | cons c rest ih =>
    simp only [List.contains_cons, Bool.or_eq_false_iff] at h
    have hc : ¬ c = '.' := by
      intro he
      rw [he] at h
      simp at h
    simp [splitFirstDot, hc, ih h.2]

/-- C6 counterexample: the ref `'a.b'` begins and ends with a single quote,
yet against the empty state it resolves to `None`, not to the inner string
`a.b` — the dotted-form rule fires first on the quote-enclosed dot. -/
theorem resolve_quoted_dotted_counterexample :
    isQuoted ([squote] ++ "a.b".data ++ [squote]) = true ∧
    _resolve_value_from_state [] ([squote] ++ "a.b".data ++ [squote]) = .vnull ∧
    Value.vnull ≠ .vstr (strInner ([squote] ++ "a.b".data ++ [squote])) := by
  refine ⟨rfl, rfl, ?_⟩
  intro h
  exact Value.noConfusion h

/-- C6 (amended): a ref that begins and ends with a single quote resolves
to the inner string verbatim *provided the ref contains no dot*; the
dotted-form rule is evaluated before the quoted-literal rule, so a dot
inside the quotes sends resolution down the dotted path instead. -/
theorem resolve_quoted_no_dot (state_data : DictV) (key : Str)
    (hq : isQuoted key = true) (hnd : key.contains '.' = false) :
    _resolve_value_from_state state_data key = .vstr (strInner key) := by
  have hni : ¬ key = "item".data := by
    intro he
    rw [he] at hq
    exact absurd hq (by decide)
  rw [_resolve_value_from_state,
    splitDots_of_splitFirstDot_none (splitFirstDot_none_of_not_contains hnd)]
  simp [resolveSegs, hni, hq]

/-- C6 witness: the quoted dot-free ref `'hello'` resolves to `hello`
against an arbitrary concrete state. -/
theorem resolve_quoted_no_dot_witness :
    isQuoted ([squote] ++ "hello".data ++ [squote]) = true ∧
    ([squote] ++ "hello".data ++ [squote]).contains '.' = false ∧
    _resolve_value_from_state [("x".data, .vint 1)]
        ([squote] ++ "hello".data ++ [squote]) =
      .vstr (strInner ([squote] ++ "hello".data ++ [squote])) :=
  ⟨by decide, by decide,
    resolve_quoted_no_dot [("x".data, .vint 1)]
      ([squote] ++ "hello".data ++ [squote]) (by decide) (by decide)⟩

/-! ## Claim C7 — the router node and the reducers -/

/-- C7 counterexample: executing the identity router node on a state whose
`debug_log` holds one record does *not* leave the state unchanged — the
concatenating reducer receives the full list back and duplicates it. -/
theorem router_node_counterexample :
    applyUpdate
        (GraphState.mk [] [⟨"a".data, "code".data, "Completed".data, 0,
          .vnull, .vnull, none, false⟩] [] [])
        (routerNode (GraphState.mk [] [⟨"a".data, "code".data,
          "Completed".data, 0, .vnull, .vnull, none, false⟩] [] [])) ≠
      GraphState.mk [] [⟨"a".data, "code".data, "Completed".data, 0,
        .vnull, .vnull, none, false⟩] [] [] ∧
    (applyUpdate
        (GraphState.mk [] [⟨"a".data, "code".data, "Completed".data, 0,
          .vnull, .vnull, none, false⟩] [] [])
        (routerNode (GraphState.mk [] [⟨"a".data, "code".data,
          "Completed".data, 0, .vnull, .vnull, none, false⟩] [] []))).debug_log.length
      = 2 := by
  constructor
  · intro h
    exact absurd (congrArg (fun st => st.debug_log.length) h) (by decide)
  · rfl

/-- C7 (amended): a `conditional_router` node returns the entire state as
its update, so under the field-wise reducers each of the three log lists is
concatenated with itself (duplicating its entries) while `workflow_data`
(whose keys are unique) is unchanged; the state is therefore preserved only
when all three log lists are empty. -/
theorem router_node_duplicates_logs (s : GraphState)
    (h : (s.workflow_data.map Prod.fst).Nodup) :
    applyUpdate s (routerNode s) =
      GraphState.mk (s.execution_log ++ s.execution_log)
        (s.debug_log ++ s.debug_log) (s.error_info ++ s.error_info)
        s.workflow_data := by
  simp [applyUpdate, routerNode, merge_workflow_data, mergeDict_self h]

/-- C7 witness: a concrete state with one entry in each channel has its
three log lists doubled and its workflow_data preserved. -/
theorem router_node_duplicates_logs_witness :
    ((GraphState.mk ["e".data] [⟨"a".data, "code".data, "Completed".data, 0,
        .vnull, .vnull, none, false⟩] [⟨"f".data, "m".data, "t".data⟩]
        [("k".data, .vint 1)]).workflow_data.map Prod.fst).Nodup ∧
    applyUpdate
        (GraphState.mk ["e".data] [⟨"a".data, "code".data, "Completed".data, 0,
          .vnull, .vnull, none, false⟩] [⟨"f".data, "m".data, "t".data⟩]
          [("k".data, .vint 1)])
        (routerNode (GraphState.mk ["e".data] [⟨"a".data, "code".data,
          "Completed".data, 0, .vnull, .vnull, none, false⟩]
          [⟨"f".data, "m".data, "t".data⟩] [("k".data, .vint 1)])) =
      GraphState.mk (["e".data] ++ ["e".data])
        ([⟨"a".data, "code".data, "Completed".data, 0, .vnull, .vnull, none,
          false⟩] ++ [⟨"a".data, "code".data, "Completed".data, 0, .vnull,
          .vnull, none, false⟩])
        ([⟨"f".data, "m".data, "t".data⟩] ++ [⟨"f".data, "m".data, "t".data⟩])
        [("k".data, .vint 1)] :=
  ⟨by simp,
    router_node_duplicates_logs
      (GraphState.mk ["e".data] [⟨"a".data, "code".data, "Completed".data, 0,
        .vnull, .vnull, none, false⟩] [⟨"f".data, "m".data, "t".data⟩]
        [("k".data, .vint 1)]) (by simp)⟩

/-! ## Claim C8 — which record fields pass the JSON-safety pass -/

/-- C8 counterexample: a handler whose output is a byte blob produces a
debug record whose `outputs` still contain the raw bytes — the record's
outputs are *not* the result of the JSON-safety pass. -/
theorem record_outputs_not_sanitized_counterexample :
    (_node_wrapper "s".data "code".data ⟨some "ok".data, none⟩
        (fun _ => .ok (.vbytes [1, 2, 3], .vdict [], []))
        (GraphState.mk [] [] [] [])).debug_log =
      some [completedRecord "s".data "code".data (.vdict [])
        [("ok".data, .vbytes [1, 2, 3])]] ∧
    sanitize_for_json (completedRecord "s".data "code".data (.vdict [])
        [("ok".data, .vbytes [1, 2, 3])]).outputs ≠
      (completedRecord "s".data "code".data (.vdict [])
        [("ok".data, .vbytes [1, 2, 3])]).outputs := by
  constructor
  · rfl
  · intro h
    have h2 := congrArg (fun v => match v with
      | Value.vdict ((_, Value.vbytes _) :: _) => true
      | _ => false) h
    exact absurd h2 (by decide)

/-- C8 (amended): in the non-mapped branch the wrapper applies the
JSON-safety pass to the parent record's `inputs` (the handler's resolved
inputs), but the record's `outputs` — and the `workflow_data` update — are
written exactly as the handler produced them, without the pass. -/
theorem wrapper_sanitizes_only_inputs (step_name step_type : Str) (ok : Str)
    (logic : LogicFn) (state : GraphState)
    (output resolved_inputs : Value) (extras : List DebugRecord)
    (hok : ok ≠ [])
    (hgate : state.error_info = [])
    (hlogic : logic state.workflow_data = .ok (output, resolved_inputs, extras)) :
    _node_wrapper step_name step_type ⟨some ok, none⟩ logic state =
      { debug_log := some (completedRecord step_name step_type
          (sanitize_for_json resolved_inputs) [(ok, output)] :: extras),
        workflow_data := some [(ok, output)] } := by
  have hb : state.error_info.isEmpty = true := by rw [hgate]; rfl
  simp [_node_wrapper, hb, runBody, hlogic, outputsByKey, hok]

/-- C8 witness: a handler returning resolved inputs that contain bytes and
an integer output yields a parent record with sanitized inputs and the raw
output. -/
theorem wrapper_sanitizes_only_inputs_witness :
    ("ok".data : Str) ≠ [] ∧
    (GraphState.mk [] [] [] []).error_info = [] ∧
    (fun (_ : DictV) => (.ok (.vint 7,
        .vdict [("b".data, .vbytes [1, 2])], []) :
        Except ErrDetails LogicOut)) (GraphState.mk [] [] [] []).workflow_data =
      .ok (.vint 7, .vdict [("b".data, .vbytes [1, 2])], []) ∧
    _node_wrapper "s".data "code".data ⟨some "ok".data, none⟩
        (fun _ => .ok (.vint 7, .vdict [("b".data, .vbytes [1, 2])], []))
        (GraphState.mk [] [] [] []) =
      { debug_log := some [completedRecord "s".data "code".data
          (sanitize_for_json (.vdict [("b".data, .vbytes [1, 2])]))
          [("ok".data, .vint 7)]],
        workflow_data := some [("ok".data, .vint 7)] } :=
  ⟨by decide, rfl, rfl,
    wrapper_sanitizes_only_inputs "s".data "code".data "ok".data
      (fun _ => .ok (.vint 7, .vdict [("b".data, .vbytes [1, 2])], []))
      (GraphState.mk [] [] [] []) (.vint 7)
      (.vdict [("b".data, .vbytes [1, 2])]) [] (by decide) rfl rfl⟩

/-! ## Claim C4 — map-over-list aggregation and child records -/

/-- A successful `runIterations` yields exactly one result per input
element. -/
theorem runIterations_length {logic : LogicFn} {wd : DictV} :
    ∀ {items : List Value} {index : Nat} {results : List LogicOut},
      runIterations logic wd items index = .ok results →
        results.length = items.length := by
  intro items
  induction items with
  | nil => intro index results h; cases h; rfl
  | cons item rest ih =>
    intro index results h
    simp only [runIterations] at h
    cases hl : logic (mergeDict wd
        [("item".data, item), ("map_index".data, .vint index)]) with
    | error e => rw [hl] at h; cases h
    | ok r =>
      rw [hl] at h
      cases hr : runIterations logic wd rest (index + 1) with
      | error e => rw [hr] at h; cases h
      | ok rs =>
        rw [hr] at h
        cases h
        simp [ih hr]

/-- In a successful `runIterations`, the `i`-th result is the handler
applied to the base `workflow_data` overlaid with the `i`-th item and its
map index. -/
theorem runIterations_get {logic : LogicFn} {wd : DictV} :
    ∀ {items : List Value} {index : Nat} {results : List LogicOut},
      runIterations logic wd items index = .ok results →
      ∀ i (hi : i < items.length) (hr : i < results.length),
        logic (mergeDict wd [("item".data, items.get ⟨i, hi⟩),
          ("map_index".data, .vint (index + i))]) =
          .ok (results.get ⟨i, hr⟩) := by
  intro items
  induction items with
  | nil => intro index results h i hi hr; simp at hi
  | cons item rest ih =>
    intro index results h i hi hr
    simp only [runIterations] at h
    cases hl : logic (mergeDict wd
        [("item".data, item), ("map_index".data, .vint index)]) with
    | error e => rw [hl] at h; cases h
    | ok r =>
      rw [hl] at h
      cases hrun : runIterations logic wd rest (index + 1) with
      | error e => rw [hrun] at h; cases h
      | ok rs =>
        rw [hrun] at h
        cases h
        cases i with
        | zero => simpa using hl
        | succ j =>
          have hj : j < rest.length := by simpa using hi
          have hj2 : j < rs.length := by simpa using hr
          have hx := ih hrun j hj hj2
          have harith : ((index + 1 : Nat) : Int) + (j : Int) =
              (index : Int) + ((j + 1 : Nat) : Int) := by push_cast; ring
          rw [harith] at hx
          exact hx

/-- C4: for a node whose `map_input` resolves to a list, the wrapper's
update sets `output_key` to the per-iteration handler outputs in input
order; each iteration's context overlays `item` and `map_index` onto the
base `workflow_data`; and the `debug_log` gains the single parent record,
every iteration's extra records, and one `is_child: true` child record per
iteration (for the empty list this degenerates to `output_key: []` and no
child records). -/
theorem node_wrapper_map_over_list (step_name step_type : Str)
    (map_input_key ok : Str) (logic : LogicFn) (state : GraphState)
    (items : List Value) (results : List LogicOut)
    (hgate : state.error_info = [])
    (hres : _resolve_value_from_state state.workflow_data map_input_key =
      .vlist items)
    (hrun : runIterations logic state.workflow_data items 0 = .ok results) :
    _node_wrapper step_name step_type ⟨some ok, some map_input_key⟩ logic
        state =
      { debug_log := some (completedRecord step_name step_type
          (.vdict [("map_source".data, .vstr map_input_key),
            ("item_count".data, .vint items.length)])
          [(ok, .vlist (results.map (fun r => r.1)))] ::
          (results.flatMap (fun r => r.2.2) ++
            childRecords step_name step_type results items.length)),
        workflow_data := some [(ok, .vlist (results.map (fun r => r.1)))] } ∧
    (results.map (fun r => r.1)).length = items.length ∧
    (childRecords step_name step_type results items.length).length =
      items.length ∧
    (∀ r ∈ childRecords step_name step_type results items.length,
      r.is_child = true) ∧
    (∀ i (hi : i < items.length) (hri : i < results.length),
      logic (mergeDict state.workflow_data
          [("item".data, items.get ⟨i, hi⟩), ("map_index".data, .vint i)]) =
        .ok (results.get ⟨i, hri⟩)) := by
  have hb : state.error_info.isEmpty = true := by rw [hgate]; rfl
  have hlen := runIterations_length hrun
  refine ⟨?_, ?_, ?_, ?_, ?_⟩
  · simp [_node_wrapper, hb, runBody, hres, hrun]
  · simp [hlen]
  · simp [childRecords, hlen]
  · intro r hr
    simp only [childRecords, List.mem_map] at hr
    obtain ⟨ir, _, rfl⟩ := hr
    rfl
  · intro i hi hri
    have := runIterations_get hrun i hi hri
    simpa using this

/-- C4 witness: mapping a concrete handler over a two-element list yields
the ordered output list, two child records and the parent record. -/
theorem node_wrapper_map_over_list_witness :
    (GraphState.mk [] [] [] [("xs".data, .vlist [.vint 5, .vint 7])]).error_info
      = [] ∧
    _resolve_value_from_state
        (GraphState.mk [] [] [] [("xs".data,
          .vlist [.vint 5, .vint 7])]).workflow_data "xs".data =
      .vlist [.vint 5, .vint 7] ∧
    runIterations (fun ctx => .ok (dictGet ctx "item".data, .vdict [], []))
        (GraphState.mk [] [] [] [("xs".data,
          .vlist [.vint 5, .vint 7])]).workflow_data [.vint 5, .vint 7] 0 =
      .ok [(.vint 5, .vdict [], []), (.vint 7, .vdict [], [])] ∧
    _node_wrapper "m".data "code".data ⟨some "out".data, some "xs".data⟩
        (fun ctx => .ok (dictGet ctx "item".data, .vdict [], []))
        (GraphState.mk [] [] [] [("xs".data, .vlist [.vint 5, .vint 7])]) =
      { debug_log := some (completedRecord "m".data "code".data
          (.vdict [("map_source".data, .vstr "xs".data),
            ("item_count".data, .vint 2)])
          [("out".data, .vlist [.vint 5, .vint 7])] ::
          childRecords "m".data "code".data
            [(.vint 5, .vdict [], []), (.vint 7, .vdict [], [])] 2),
        workflow_data := some [("out".data, .vlist [.vint 5, .vint 7])] } :=
  ⟨rfl, rfl, rfl,
    (node_wrapper_map_over_list "m".data "code".data "xs".data "out".data
      (fun ctx => .ok (dictGet ctx "item".data, .vdict [], []))
      (GraphState.mk [] [] [] [("xs".data, .vlist [.vint 5, .vint 7])])
      [.vint 5, .vint 7] [(.vint 5, .vdict [], []), (.vint 7, .vdict [], [])]
      rfl rfl rfl).1⟩

/-! ## Claim C1 — fan-in: direct edges, no synthetic join nodes -/

/-- The two-parent step `c` of the spec's fan-in scenario S2. -/
def s2stepC : Step :=
  Step.mk "c".data "code".data ["a".data, "b".data]
    (StepParams.mk (some "c".data) [] none [] [] none)

/-- The S2 document: independent steps `a` and `b`, then `c` depending on
both of their outputs. -/
def s2doc : List Step :=
  [Step.mk "a".data "code".data [] (StepParams.mk (some "a".data) [] none [] [] none),
   Step.mk "b".data "code".data [] (StepParams.mk (some "b".data) [] none [] [] none),
   s2stepC]

/-- C1 counterexample: in the compiled S2 graph the step `c` has a
two-element `parent_set`, yet no node named `join_for_c` exists, the node
set is exactly the three step names, and no conditional edge is added at
all — the compiler synthesizes no join barrier. -/
theorem no_join_node_counterexample :
    (sourceNodes (_build_output_map s2doc) s2stepC.dependencies).length = 2 ∧
    ("join_for_".data ++ "c".data) ∉ (build s2doc).nodes ∧
    (build s2doc).nodes = ["a".data, "b".data, "c".data] ∧
    (build s2doc).conditional_edges = [] := by
  refine ⟨by decide, by decide, by decide, by decide⟩

/-- C1 (amended): the compiler never synthesizes join nodes: the node set
of the compiled graph is exactly the document's step names; every step with
dependencies receives one *direct* edge from each member of its
`parent_set` (for a multi-parent step, one per parent — fan-in relies on
the engine waiting on all incoming edges, not on a join barrier); and every
conditional edge originates at a `conditional_router` step, never at a
synthetic join. -/
theorem build_direct_edges_no_join (steps : List Step) (step : Step)
    (hmem : step ∈ steps) (hdep : step.dependencies ≠ []) :
    (build steps).nodes = steps.map (fun s => s.name) ∧
    (∀ src ∈ sourceNodes (_build_output_map steps) step.dependencies,
      (src, step.name) ∈ (build steps).edges) ∧
    (∀ ce ∈ (build steps).conditional_edges,
      ∃ s ∈ steps, s.type = "conditional_router".data ∧ ce.1 = s.name) := by
  refine ⟨rfl, ?_, ?_⟩
  · intro src hsrc
    have h1 : (src, step.name) ∈ dependencyEdges steps := by
      simp only [dependencyEdges]
      apply List.mem_flatMap.mpr
      refine ⟨step, hmem, ?_⟩
      rw [if_neg hdep]
      exact List.mem_map_of_mem _ hsrc
    exact List.mem_append_left _ h1
  · intro ce hce
    have h2 : ce ∈ conditionalEdges steps := hce
    simp only [conditionalEdges, List.mem_filterMap] at h2
    obtain ⟨s, hs, hmap⟩ := h2
    by_cases ht : s.type = "conditional_router".data
    · rw [if_pos ht] at hmap
      cases hmap
      exact ⟨s, hs, ht, rfl⟩
    · rw [if_neg ht] at hmap
      cases hmap

/-- C1 witness: in the S2 document, `c`'s two parents `a` and `b` each get
a direct edge into `c`, and the graph's nodes are the step names. -/
theorem build_direct_edges_no_join_witness :
    s2stepC ∈ s2doc ∧ s2stepC.dependencies ≠ [] ∧
    ((build s2doc).nodes = s2doc.map (fun s => s.name) ∧
      (∀ src ∈ sourceNodes (_build_output_map s2doc) s2stepC.dependencies,
        (src, s2stepC.name) ∈ (build s2doc).edges) ∧
      (∀ ce ∈ (build s2doc).conditional_edges,
        ∃ s ∈ s2doc, s.type = "conditional_router".data ∧ ce.1 = s.name)) :=
  ⟨List.mem_cons_of_mem _ (List.mem_cons_of_mem _ (List.mem_cons_self _ _)),
    by decide,
    build_direct_edges_no_join s2doc s2stepC
      (List.mem_cons_of_mem _ (List.mem_cons_of_mem _ (List.mem_cons_self _ _)))
      (by decide)⟩

/-! ## Claim C2 — the sub-workflow handler drives the sub-graph twice -/

/-- A sub-graph whose `k`-th drive ends with `workflow_data = {"k": k+1}`
and yields the single internal event `k` — drives are distinguishable, as
for any effectful or nondeterministic sub-workflow. -/
def c2env : SubGraph :=
  SubGraph.mk (fun k => GraphState.mk [] [] [] [("k".data, .vint (k + 1))])
    (fun k => [.vint k])

/-- C2 counterexample: the handler drives the sub-graph *twice*, not once;
the forwarded events come from the first drive while the `output_mapping`
projection reads the second drive's final `workflow_data` — on `c2env` the
projected output is `2` although the streamed execution finished with `1`. -/
theorem workflow_logic_double_run_counterexample :
    (_workflow_logic c2env "outer".data "inner".data []
        [("k".data, "pk".data)] []).2.2 = 2 ∧
    (2 : Nat) ≠ 1 ∧
    (_workflow_logic c2env "outer".data "inner".data []
        [("k".data, "pk".data)] []).2.1 =
      [SubWorkflowEvent.mk "outer".data "inner".data (.vint 0) .vnull] ∧
    (_workflow_logic c2env "outer".data "inner".data []
        [("k".data, "pk".data)] []).1 =
      .ok (.vdict [("pk".data, .vint 2)], .vdict [], []) ∧
    dictGet (c2env.finalState 0).workflow_data "k".data = .vint 1 ∧
    Value.vint 2 ≠ Value.vint 1 := by
  refine ⟨rfl, by decide, rfl, rfl, rfl, ?_⟩
  intro h
  injection h with h2
  exact absurd h2 (by decide)

/-- C2 (amended): for every workflow-kind step whose sub-run (as observed
by `ainvoke`) ends without errors, the handler drives the named sub-graph
*twice*: it forwards every internal event of the first drive to the outer
queue — annotated with `parent_step`, `sub_workflow` and
`context_data.get("map_index")` — and projects the *second* drive's final
`workflow_data` through `output_mapping` into the node's output, forwarding
that second drive's `debug_log` as extra records. -/
theorem workflow_logic_runs_twice (sub_graph : SubGraph)
    (step_name sub_workflow_name : Str)
    (input_mapping output_mapping : List (Str × Str)) (context_data : DictV)
    (hok : (sub_graph.finalState 1).error_info = []) :
    _workflow_logic sub_graph step_name sub_workflow_name input_mapping
        output_mapping context_data =
      (.ok (.vdict (output_mapping.map (fun p =>
          (p.2, dictGet (sub_graph.finalState 1).workflow_data p.1))),
        .vdict (input_mapping.map (fun p =>
          (p.2, _resolve_value_from_state context_data p.1))),
        (sub_graph.finalState 1).debug_log),
       (sub_graph.events 0).map (fun e => SubWorkflowEvent.mk step_name
         sub_workflow_name e (dictGet context_data "map_index".data)),
       2) := by
  simp [_workflow_logic, hok]

/-- C2 witness: on `c2env` the handler's result is the second drive's
projection while the emitted events are the first drive's. -/
theorem workflow_logic_runs_twice_witness :
    (c2env.finalState 1).error_info = [] ∧
    _workflow_logic c2env "o".data "i".data [] [("k".data, "pk".data)] [] =
      (.ok (.vdict [("pk".data, .vint 2)], .vdict [], []),
       [SubWorkflowEvent.mk "o".data "i".data (.vint 0) .vnull], 2) :=
  ⟨rfl,
    workflow_logic_runs_twice c2env "o".data "i".data []
      [("k".data, "pk".data)] [] rfl⟩
